import Mathlib

/-!
Shallow embedding of `actionlint-mcp` (`src/main.go`): the two tool
handlers `LintWorkflow` and `CheckAllWorkflows`, their result model, and
the directory-summary fold.

Modelling conventions.

* The effectful collaborators (file system, `filepath.Glob`, the
  actionlint engine) are abstracted into an `Env` record of functions;
  `os.ReadFile` and `linter.Lint` return `Except`, and `filepath.Glob`
  returns a pair of a match list and an optional error, since the Go code
  at `main.go:146-148` receives both and discards the error.
* `actionlint.NewLinter` (`main.go:82-85`) eagerly parses
  `opts.ConfigFile` (`ReadConfigFile`), so a malformed or unreadable
  `.github/actionlint.yaml` — the stat guard at `main.go:69-73` only
  clears a file that does not exist — makes the handler fail with
  `failed to create linter: `.  The linter value is opaque here, so
  creation and run are folded into the single `Env.lint` step, whose
  failure names the stage that failed (`LintFailure.create` for
  `NewLinter`, `LintFailure.run` for `linter.Lint`); a read failure
  still precedes both, as in the Go control flow.
* `json.MarshalIndent` on `LintResult` / the summary map (`main.go:124`,
  `main.go:213`) cannot fail: every field is a string, int, bool, slice
  or map of such.  The marshal/unmarshal round trip through the
  `TextContent` block in `CheckAllWorkflows` (`main.go:187-195`) is the
  identity on `LintResult`, so results are passed as values here and the
  unreachable unmarshal-failure branch is dropped.
* Go's `map[string]LintResult` is modelled as an association list with
  replace-on-insert (`mapInsert`); iteration order only feeds two
  order-independent counters, computed by the fold `summarize`.
-/

/-- One diagnostic reported by the actionlint engine
(`actionlint.Error`: message, position, and the rule kind). -/
structure ActionlintError where
  message : String
  line : Int
  column : Int
  kind : String
deriving Repr, DecidableEq

/-- `LintError` from `main.go:41-47`: one normalized diagnostic. -/
structure LintError where
  message : String
  line : Int
  column : Int
  kind : String
  severity : String
deriving Repr, DecidableEq

/-- `LintResult` from `main.go:35-39`: one document's outcome. -/
structure LintResult where
  errors : List LintError
  valid : Bool
  filePath : String
deriving Repr, DecidableEq

/-- `LintWorkflowParams` from `main.go:26-29`.  Go strings have zero
value `""`, so an absent argument and an empty argument coincide. -/
structure LintWorkflowParams where
  filePath : String
  content : String
deriving Repr, DecidableEq

/-- `CheckAllWorkflowsParams` from `main.go:31-33`. -/
structure CheckAllWorkflowsParams where
  directory : String
deriving Repr, DecidableEq

/-- A failure of the linter stage of `LintWorkflow`: `create` is
`actionlint.NewLinter` failing (`main.go:82-85`, reachable through a
malformed `.github/actionlint.yaml` parsed by `ReadConfigFile`), `run`
is `linter.Lint` failing (`main.go:88-91`). -/
inductive LintFailure where
  | create (msg : String)
  | run (msg : String)
deriving Repr, DecidableEq

/-- The effectful collaborators of the handlers, abstracted as pure
functions: `readFile` is `os.ReadFile` (content or error text),
`lint` is the linter stage — `actionlint.NewLinter` on the process
configuration followed by `linter.Lint` on a filename and content
(diagnostic list, or a stage-tagged failure text) — and `glob` is
`filepath.Glob` (match list and optional error text). -/
structure Env where
  readFile : String → Except String String
  lint : String → String → Except LintFailure (List ActionlintError)
  glob : String → List String × Option String

/-- The severity switch of `main.go:111-118`. -/
def severityOf (kind : String) : String :=
  match kind with
  | "syntax-check" | "type-check" => "error"
  | "shellcheck" | "pyflakes" => "warning"
  | _ => "info"

/-- The loop body of `main.go:100-121`: normalize one engine
diagnostic into a `LintError`. -/
def toLintError (e : ActionlintError) : LintError :=
  { message := e.message
    line := e.line
    column := e.column
    kind := e.kind
    severity := severityOf e.kind }

/-- `main.go:68-121`: create the linter and run the engine on a
filename and content, surfacing a creation failure as
`failed to create linter: ` (`main.go:82-85`) and a run failure as
`linting failed: ` (`main.go:88-91`), then build the `LintResult`
(`Valid` is `len(errs) == 0`, `Errors` is the normalization loop,
`FilePath` the resolved name). -/
def runLint (env : Env) (filePath content : String) :
    Except String LintResult :=
  match env.lint filePath content with
  | .error (.create e) => .error ("failed to create linter: " ++ e)
  | .error (.run e) => .error ("linting failed: " ++ e)
  | .ok errs =>
      .ok { errors := errs.map toLintError
            valid := errs.length == 0
            filePath := filePath }

/-- `LintWorkflow` (`main.go:49-136`): resolve the input (path wins,
then inline content, else the missing-input error), then lint.  The
serialized payload is modelled as the `LintResult` value itself. -/
def lintWorkflow (env : Env) (params : LintWorkflowParams) :
    Except String LintResult :=
  if params.filePath != "" then
    match env.readFile params.filePath with
    | .error e => .error ("failed to read file: " ++ e)
    | .ok content => runLint env params.filePath content
  else if params.content != "" then
    runLint env "inline.yml" params.content
  else
    .error "either file_path or content must be provided"

/-- `filepath.Join(directory, name)` as used at `main.go:145-147`.  The
join result is only ever passed to `env.glob`, so the path-cleaning Go
performs is immaterial; a separator-joined string keeps the two glob
patterns distinct functions of the directory. -/
def joinPath (dir name : String) : String :=
  dir ++ "/" ++ name

/-- Assignment into a Go `map[string]LintResult`: replace the binding
when the key is present, append it otherwise. -/
def mapInsert (m : List (String × LintResult)) (k : String)
    (v : LintResult) : List (String × LintResult) :=
  if m.any (fun p => p.1 == k) then
    m.map (fun p => if p.1 == k then (k, v) else p)
  else
    m ++ [(k, v)]

/-- Lookup in the association-list model of the Go map. -/
def mapLookup (m : List (String × LintResult)) (k : String) :
    Option LintResult :=
  match m with
  | [] => none
  | p :: rest => if p.1 == k then some p.2 else mapLookup rest k

/-- The synthetic result built at `main.go:176-183` when
`LintWorkflow` fails for a discovered file: one diagnostic embedding
the failure cause, severity `"error"`, `valid=false`.  The unset Go
fields (`Line`, `Column`, `Kind`) take their zero values. -/
def syntheticResult (file cause : String) : LintResult :=
  { errors := [{ message := "Failed to lint: " ++ cause
                 line := 0
                 column := 0
                 kind := ""
                 severity := "error" }]
    valid := false
    filePath := file }

/-- The body of the fan-out loop at `main.go:166-196` for one file:
lint it by path, downgrading a failure to `syntheticResult`. -/
def resultFor (env : Env) (file : String) : LintResult :=
  match lintWorkflow env { filePath := file, content := "" } with
  | .error e => syntheticResult file e
  | .ok r => r

/-- The fan-out loop of `main.go:166-196`: lint each discovered file
and insert the outcome under the file's path. -/
def buildResults (env : Env) (files : List String)
    (m : List (String × LintResult)) : List (String × LintResult) :=
  match files with
  | [] => m
  | file :: rest => buildResults env rest (mapInsert m file (resultFor env file))

/-- The counting loop of `main.go:206-211`: fold over the results map,
incrementing `files_with_errors` and adding `len(result.Errors)` to
`total_errors` for each invalid result. -/
def summarize (rs : List (String × LintResult)) : Nat × Nat :=
  rs.foldl
    (fun acc p =>
      if p.2.valid then acc else (acc.1 + 1, acc.2 + p.2.errors.length))
    (0, 0)

/-- The summary object of `main.go:199-204` with the counters of
`main.go:206-211` filled in. -/
structure Summary where
  totalFiles : Nat
  filesWithErrors : Nat
  totalErrors : Nat
  results : List (String × LintResult)
deriving Repr, DecidableEq

/-- The two successful response shapes of `CheckAllWorkflows`: the
plain "no workflow files" text (`main.go:153-161`) or the serialized
summary (`main.go:218-224`). -/
inductive CheckAllOutput where
  | text (s : String)
  | summary (s : Summary)
deriving Repr, DecidableEq

/-- `CheckAllWorkflows` (`main.go:138-225`).  The only error return in
the Go function is the impossible `json.MarshalIndent` failure, so the
handler is total here. -/
def checkAllWorkflows (env : Env) (params : CheckAllWorkflowsParams) :
    CheckAllOutput :=
  let directory :=
    if params.directory != "" then params.directory
    else ".github/workflows"
  let files1 := (env.glob (joinPath directory "*.yml")).1
  let files2 := (env.glob (joinPath directory "*.yaml")).1
  let files := files1 ++ files2
  if files.length == 0 then
    .text ("No workflow files found in " ++ directory)
  else
    let allResults := buildResults env files []
    let counts := summarize allResults
    .summary { totalFiles := files.length
               filesWithErrors := counts.1
               totalErrors := counts.2
               results := allResults }

/-- A result in which `valid = true` forces an empty diagnostic list.
Every entry the aggregator stores satisfies this. -/
def goodRes (r : LintResult) : Prop :=
  r.valid = true → r.errors = []

/-! Concrete sample data used to witness the theorems below. -/

/-- A structural diagnostic as actionlint would emit it. -/
def sampleSyntaxErr : ActionlintError :=
  { message := "unexpected key", line := 3, column := 5, kind := "syntax-check" }

/-- A shellcheck diagnostic. -/
def sampleShellErr : ActionlintError :=
  { message := "SC2086: quote this", line := 10, column := 2, kind := "shellcheck" }

/-- A diagnostic of a kind outside the two mapped groups. -/
def sampleExprErr : ActionlintError :=
  { message := "undefined context", line := 7, column := 1, kind := "expression" }

/-- An environment whose engine accepts everything. -/
def envClean : Env :=
  { readFile := fun _ => .ok "name: ci"
    lint := fun _ _ => .ok []
    glob := fun _ => ([], none) }

/-- An environment whose engine reports three diagnostics of distinct
kinds for every document. -/
def envDiag : Env :=
  { readFile := fun _ => .ok "name: ci"
    lint := fun _ _ => .ok [sampleSyntaxErr, sampleShellErr, sampleExprErr]
    glob := fun _ => ([], none) }

/-- An environment whose engine rejects every document (including the
empty one) with a single structural diagnostic. -/
def envReject : Env :=
  { readFile := fun _ => .ok ""
    lint := fun _ _ => .ok [sampleSyntaxErr]
    glob := fun _ => ([], none) }

/-- An environment in which every file read fails, and the directory
`d` contains exactly one workflow file. -/
def envReadFail : Env :=
  { readFile := fun _ => .error "boom"
    lint := fun _ _ => .ok []
    glob := fun p => if p == "d/*.yml" then (["d/a.yml"], none) else ([], none) }

/-- An environment whose glob always fails (as `filepath.Glob` does on a
malformed pattern: no matches, `ErrBadPattern`). -/
def envBadGlob : Env :=
  { readFile := fun _ => .ok "name: ci"
    lint := fun _ _ => .ok []
    glob := fun _ => ([], some "syntax error in pattern") }

/-- An environment whose linter creation fails, as when a malformed
`.github/actionlint.yaml` exists and `actionlint.NewLinter` fails
while parsing it. -/
def envBadConfig : Env :=
  { readFile := fun _ => .ok "name: ci"
    lint := fun _ _ => .error (.create "parse error")
    glob := fun _ => ([], none) }

/-- An environment with a directory `d` holding one clean and one
faulty workflow file. -/
def envMixed : Env :=
  { readFile := fun p => if p == "d/bad.yml" then .ok "bad" else .ok "good"
    lint := fun _ c => if c == "bad" then .ok [sampleSyntaxErr] else .ok []
    glob := fun p => if p == "d/*.yml" then (["d/ok.yml", "d/bad.yml"], none)
                     else ([], none) }

/-- The summary `checkAllWorkflows envMixed` produces for directory
`d`: two files, one invalid, one diagnostic in total. -/
def mixedSummary : Summary :=
  { totalFiles := 2
    filesWithErrors := 1
    totalErrors := 1
    results :=
      [("d/ok.yml", { errors := [], valid := true, filePath := "d/ok.yml" }),
       ("d/bad.yml",
        { errors := [{ message := "unexpected key", line := 3, column := 5,
                       kind := "syntax-check", severity := "error" }],
          valid := false, filePath := "d/bad.yml" })] }

/-- The summary `checkAllWorkflows envReadFail` produces for directory
`d`: the one discovered file fails to read and yields the synthetic
result. -/
def readFailSummary : Summary :=
  { totalFiles := 1
    filesWithErrors := 1
    totalErrors := 1
    results :=
      [("d/a.yml", syntheticResult "d/a.yml" "failed to read file: boom")] }

/-- A successful engine run yields `valid` equal to emptiness of the
normalized list. -/
theorem runLint_ok_valid (env : Env) (fp c : String) (r : LintResult)
    (h : runLint env fp c = .ok r) : r.valid = r.errors.isEmpty := by
  unfold runLint at h
  cases hl : env.lint fp c with
  | error e => rw [hl] at h; cases e <;> simp at h
  | ok errs =>
      rw [hl] at h
      simp only [Except.ok.injEq] at h
      subst h
      cases errs <;> simp

/-- A failed linter stage surfaces with the `failed to create linter: `
message or the `linting failed: ` message. -/
theorem runLint_error_msg (env : Env) (fp c e : String)
    (h : runLint env fp c = .error e) :
    (∃ m, e = "failed to create linter: " ++ m) ∨
    (∃ m, e = "linting failed: " ++ m) := by
  unfold runLint at h
  cases hl : env.lint fp c with
  | error f =>
      rw [hl] at h
      cases f with
      | create m => left; simp at h; exact ⟨m, h.symm⟩
      | run m => right; simp at h; exact ⟨m, h.symm⟩
  | ok errs => rw [hl] at h; simp at h

/-- A successful engine run is keyed by the resolved filename. -/
theorem runLint_ok_filePath (env : Env) (fp c : String) (r : LintResult)
    (h : runLint env fp c = .ok r) : r.filePath = fp := by
  unfold runLint at h
  cases hl : env.lint fp c with
  | error e => rw [hl] at h; cases e <;> simp at h
  | ok errs =>
      rw [hl] at h
      simp only [Except.ok.injEq] at h
      subst h
      rfl

/-- C1: for every successful `LintWorkflow` call the result's `valid`
field is `true` exactly when its diagnostic list is empty. -/
theorem lintWorkflow_valid_iff_no_diagnostics (env : Env)
    (params : LintWorkflowParams) (r : LintResult)
    (h : lintWorkflow env params = .ok r) :
    r.valid = r.errors.isEmpty := by
  unfold lintWorkflow at h
  split at h
  · cases hr : env.readFile params.filePath with
    | error e => rw [hr] at h; simp at h
    | ok d => rw [hr] at h; exact runLint_ok_valid env params.filePath d r h
  · split at h
    · exact runLint_ok_valid env "inline.yml" params.content r h
    · simp at h

theorem lintWorkflow_valid_iff_no_diagnostics_witness :
    lintWorkflow envClean { filePath := "", content := "a: b" } =
      .ok { errors := [], valid := true, filePath := "inline.yml" } ∧
    ({ errors := [], valid := true, filePath := "inline.yml" } : LintResult).valid =
      ({ errors := [], valid := true, filePath := "inline.yml" } : LintResult).errors.isEmpty :=
  ⟨rfl, lintWorkflow_valid_iff_no_diagnostics envClean
    { filePath := "", content := "a: b" }
    { errors := [], valid := true, filePath := "inline.yml" } rfl⟩

/-- C4: with neither argument populated, `LintWorkflow` fails with the
literal missing-input message, for every environment — so the outcome
is independent of the file system and the engine, which are therefore
never consulted. -/
theorem lintWorkflow_missing_input (env : Env) :
    lintWorkflow env { filePath := "", content := "" } =
      .error "either file_path or content must be provided" := rfl

/-- A string that disagrees with `p` on its first characters is not
`p` followed by anything. -/
theorem not_append_of_take (s p : String)
    (h : s.data.take p.data.length ≠ p.data) : ∀ m, s ≠ p ++ m := by
  intro m hm
  apply h
  rw [hm, String.data_append, List.take_left]

/-- C8 counterexample: a linter-creation failure (malformed config
file) produces the message `failed to create linter: parse error`,
which has none of the three claimed shapes — so a fourth failure
message is possible. -/
theorem lintWorkflow_error_messages_counterexample :
    lintWorkflow envBadConfig { filePath := "", content := "a: b" } =
      .error "failed to create linter: parse error" ∧
    (¬∃ m, "failed to create linter: parse error" =
        "failed to read file: " ++ m) ∧
    (¬∃ m, "failed to create linter: parse error" =
        "linting failed: " ++ m) ∧
    "failed to create linter: parse error" ≠
      "either file_path or content must be provided" := by
  refine ⟨rfl, ?_, ?_, by decide⟩
  · rintro ⟨m, hm⟩
    exact not_append_of_take _ _ (by decide) m hm
  · rintro ⟨m, hm⟩
    exact not_append_of_take _ _ (by decide) m hm

/-- C8 (amended): every failing `LintWorkflow` call carries one of
exactly four messages: a `failed to read file: ` wrap, a
`failed to create linter: ` wrap (reachable when `actionlint.NewLinter`
fails parsing a malformed `.github/actionlint.yaml`), a
`linting failed: ` wrap, or the literal missing-input message. -/
theorem lintWorkflow_error_messages (env : Env)
    (params : LintWorkflowParams) (e : String)
    (h : lintWorkflow env params = .error e) :
    (∃ m, e = "failed to read file: " ++ m) ∨
    (∃ m, e = "failed to create linter: " ++ m) ∨
    (∃ m, e = "linting failed: " ++ m) ∨
    e = "either file_path or content must be provided" := by
  unfold lintWorkflow at h
  split at h
  · cases hr : env.readFile params.filePath with
    | error e' => rw [hr] at h; simp at h; exact .inl ⟨e', h.symm⟩
    | ok d =>
        rw [hr] at h
        rcases runLint_error_msg env params.filePath d e h with h1 | h2
        · exact .inr (.inl h1)
        · exact .inr (.inr (.inl h2))
  · split at h
    · rcases runLint_error_msg env "inline.yml" params.content e h with h1 | h2
      · exact .inr (.inl h1)
      · exact .inr (.inr (.inl h2))
    · simp at h; exact .inr (.inr (.inr h.symm))

theorem lintWorkflow_error_messages_witness :
    (∃ m, "failed to read file: boom" = "failed to read file: " ++ m) ∨
    (∃ m, "failed to read file: boom" = "failed to create linter: " ++ m) ∨
    (∃ m, "failed to read file: boom" = "linting failed: " ++ m) ∨
    "failed to read file: boom" = "either file_path or content must be provided" :=
  lintWorkflow_error_messages envReadFail { filePath := "w.yml", content := "" } _ rfl

/-- C9: when both arguments are populated the explicit path wins: the
outcome equals that of the same request without inline content, the
document is read from the file, and the result is keyed by the path. -/
theorem lintWorkflow_path_preferred (env : Env) (fp c : String)
    (hfp : fp ≠ "") (hc : c ≠ "") :
    lintWorkflow env { filePath := fp, content := c } =
        lintWorkflow env { filePath := fp, content := "" } ∧
    (∀ d, env.readFile fp = .ok d →
        lintWorkflow env { filePath := fp, content := c } = runLint env fp d) ∧
    (∀ r, lintWorkflow env { filePath := fp, content := c } = .ok r →
        r.filePath = fp) := by
  have hb : (fp != "") = true := by simp [bne_iff_ne, hfp]
  refine ⟨?_, ?_, ?_⟩
  · unfold lintWorkflow; simp [hb]
  · intro d hd; unfold lintWorkflow; simp [hb, hd]
  · intro r hr
    unfold lintWorkflow at hr
    cases hrd : env.readFile fp with
    | error e =>
        simp only [bne_iff_ne, ne_eq, hfp, not_false_eq_true, if_true, hrd] at hr
        exact absurd hr (by simp)
    | ok d =>
        simp only [bne_iff_ne, ne_eq, hfp, not_false_eq_true, if_true, hrd] at hr
        exact runLint_ok_filePath env fp d r hr

theorem lintWorkflow_path_preferred_witness :
    lintWorkflow envClean { filePath := "w.yml", content := "x" } =
        lintWorkflow envClean { filePath := "w.yml", content := "" } ∧
    lintWorkflow envClean { filePath := "w.yml", content := "x" } =
        runLint envClean "w.yml" "name: ci" ∧
    ({ errors := [], valid := true, filePath := "w.yml" } : LintResult).filePath
      = "w.yml" :=
  ⟨(lintWorkflow_path_preferred envClean "w.yml" "x" (by decide) (by decide)).1,
   (lintWorkflow_path_preferred envClean "w.yml" "x" (by decide) (by decide)).2.1
     "name: ci" rfl,
   (lintWorkflow_path_preferred envClean "w.yml" "x" (by decide) (by decide)).2.2
     _ rfl⟩

/-- C5: severity is a total function of the diagnostic kind — the two
structural kinds map to `error`, the two external-checker kinds to
`warning`, everything else to `info` — and normalization keeps one
output entry per engine diagnostic, in emission order. -/
theorem lintWorkflow_severity_total_no_drop :
    (∀ e : ActionlintError,
        (toLintError e).severity =
          if e.kind = "syntax-check" ∨ e.kind = "type-check" then "error"
          else if e.kind = "shellcheck" ∨ e.kind = "pyflakes" then "warning"
          else "info") ∧
    (∀ (env : Env) (fp c : String) (errs : List ActionlintError),
        env.lint fp c = .ok errs →
        runLint env fp c =
          .ok { errors := errs.map toLintError
                valid := errs.length == 0
                filePath := fp }) := by
  constructor
  · intro e
    show severityOf e.kind = _
    unfold severityOf
    split <;> simp_all
  · intro env fp c errs hl
    unfold runLint
    rw [hl]

theorem lintWorkflow_severity_total_no_drop_witness :
    (toLintError sampleExprErr).severity =
      (if sampleExprErr.kind = "syntax-check" ∨ sampleExprErr.kind = "type-check"
       then "error"
       else if sampleExprErr.kind = "shellcheck" ∨ sampleExprErr.kind = "pyflakes"
       then "warning" else "info") ∧
    runLint envDiag "inline.yml" "x" =
      .ok { errors := [sampleSyntaxErr, sampleShellErr, sampleExprErr].map toLintError
            valid := [sampleSyntaxErr, sampleShellErr, sampleExprErr].length == 0
            filePath := "inline.yml" } :=
  ⟨lintWorkflow_severity_total_no_drop.1 sampleExprErr,
   lintWorkflow_severity_total_no_drop.2 envDiag "inline.yml" "x"
     [sampleSyntaxErr, sampleShellErr, sampleExprErr] rfl⟩

/-- C6 counterexample: zero-byte inline content with no path never
reaches the engine — even against an engine that rejects the empty
document, the call fails with the missing-input error instead of
returning a result with `valid = false`. -/
theorem lintWorkflow_empty_content_counterexample :
    envReject.lint "inline.yml" "" = .ok [sampleSyntaxErr] ∧
    lintWorkflow envReject { filePath := "", content := "" } =
      .error "either file_path or content must be provided" :=
  ⟨rfl, rfl⟩

/-- C6 (amended): non-empty inline content (including whitespace-only
content) is forwarded to the engine unmodified, and when the engine
reports at least one diagnostic the call succeeds with `valid = false`;
zero-byte content is indistinguishable from an absent argument and
fails with the missing-input error (see the counterexample). -/
theorem lintWorkflow_inline_content_forwarded (env : Env) (c : String)
    (hc : c ≠ "") :
    lintWorkflow env { filePath := "", content := c } =
        runLint env "inline.yml" c ∧
    (∀ errs, env.lint "inline.yml" c = .ok errs → errs ≠ [] →
        lintWorkflow env { filePath := "", content := c } =
          .ok { errors := errs.map toLintError, valid := false,
                filePath := "inline.yml" }) := by
  have hb : (c != "") = true := by simp [bne_iff_ne, hc]
  constructor
  · unfold lintWorkflow
    simp [hb]
  · intro errs hl hne
    cases errs with
    | nil => exact absurd rfl hne
    | cons a as =>
        unfold lintWorkflow runLint
        simp [hb, hl]

theorem lintWorkflow_inline_content_forwarded_witness :
    lintWorkflow envReject { filePath := "", content := " " } =
        runLint envReject "inline.yml" " " ∧
    lintWorkflow envReject { filePath := "", content := " " } =
      .ok { errors := [sampleSyntaxErr].map toLintError, valid := false,
            filePath := "inline.yml" } :=
  ⟨(lintWorkflow_inline_content_forwarded envReject " " (by decide)).1,
   (lintWorkflow_inline_content_forwarded envReject " " (by decide)).2
     [sampleSyntaxErr] rfl (by simp)⟩

/-- C7: when discovery yields no matching file for either extension,
`CheckAllWorkflows` succeeds with the plain no-files text naming the
directory. -/
theorem checkAllWorkflows_no_files_message (env : Env)
    (params : CheckAllWorkflowsParams) (directory : String)
    (hdir : directory =
      if params.directory != "" then params.directory
      else ".github/workflows")
    (h1 : (env.glob (joinPath directory "*.yml")).1 = [])
    (h2 : (env.glob (joinPath directory "*.yaml")).1 = []) :
    checkAllWorkflows env params =
      .text ("No workflow files found in " ++ directory) := by
  subst hdir
  unfold checkAllWorkflows
  simp only [bne_iff_ne, ne_eq, ite_not] at h1 h2
  simp [h1, h2]

theorem checkAllWorkflows_no_files_message_witness :
    checkAllWorkflows envClean { directory := "d" } =
      .text ("No workflow files found in " ++ "d") :=
  checkAllWorkflows_no_files_message envClean { directory := "d" } "d"
    rfl rfl rfl

/-- Replacing the error component of every glob answer does not change
`buildResults` (the fan-out never consults glob). -/
theorem buildResults_glob_irrelevant
    (rf : String → Except String String)
    (l : String → String → Except LintFailure (List ActionlintError))
    (g g' : String → List String × Option String) :
    ∀ (files : List String) (m : List (String × LintResult)),
      buildResults { readFile := rf, lint := l, glob := g } files m =
      buildResults { readFile := rf, lint := l, glob := g' } files m := by
  intro files
  induction files with
  | nil => intro m; rfl
  | cons f rest ih =>
      intro m
      simp only [buildResults]
      have he : resultFor { readFile := rf, lint := l, glob := g } f =
          resultFor { readFile := rf, lint := l, glob := g' } f := rfl
      rw [he]
      exact ih _

/-- The whole directory handler ignores the error component of glob. -/
theorem checkAllWorkflows_glob_err_component
    (rf : String → Except String String)
    (l : String → String → Except LintFailure (List ActionlintError))
    (g : String → List String × Option String)
    (errf : String → Option String) (params : CheckAllWorkflowsParams) :
    checkAllWorkflows
        { readFile := rf, lint := l,
          glob := fun p => ((g p).1, errf p) } params =
      checkAllWorkflows { readFile := rf, lint := l, glob := g } params := by
  unfold checkAllWorkflows
  dsimp only
  rw [buildResults_glob_irrelevant rf l (fun p => ((g p).1, errf p)) g]

/-- C10: discovery never produces an operation-level error — the glob
error value is discarded (the output depends only on the match lists),
and when both glob calls fail the way `filepath.Glob` does (no matches
plus an error) the handler answers with the no-files text. -/
theorem checkAllWorkflows_glob_errors_discarded (env : Env)
    (errf : String → Option String) (params : CheckAllWorkflowsParams) :
    checkAllWorkflows
        { readFile := env.readFile, lint := env.lint,
          glob := fun p => ((env.glob p).1, errf p) } params =
      checkAllWorkflows env params ∧
    (∀ e1 e2 directory,
        directory =
          (if params.directory != "" then params.directory
           else ".github/workflows") →
        env.glob (joinPath directory "*.yml") = ([], some e1) →
        env.glob (joinPath directory "*.yaml") = ([], some e2) →
        checkAllWorkflows env params =
          .text ("No workflow files found in " ++ directory)) := by
  constructor
  · exact checkAllWorkflows_glob_err_component env.readFile env.lint
      env.glob errf params
  · intro e1 e2 directory hdir h1 h2
    subst hdir
    unfold checkAllWorkflows
    simp only [bne_iff_ne, ne_eq, ite_not] at h1 h2
    simp [h1, h2]

theorem checkAllWorkflows_glob_errors_discarded_witness :
    checkAllWorkflows
        { readFile := envBadGlob.readFile, lint := envBadGlob.lint,
          glob := fun p => ((envBadGlob.glob p).1, (fun _ => none) p) }
        { directory := "d" } =
      checkAllWorkflows envBadGlob { directory := "d" } ∧
    checkAllWorkflows envBadGlob { directory := "d" } =
      .text ("No workflow files found in " ++ "d") :=
  ⟨(checkAllWorkflows_glob_errors_discarded envBadGlob (fun _ => none)
      { directory := "d" }).1,
   (checkAllWorkflows_glob_errors_discarded envBadGlob (fun _ => none)
      { directory := "d" }).2 "syntax error in pattern"
      "syntax error in pattern" "d" rfl rfl rfl⟩

/-- The counting fold computes the number of invalid entries and the
diagnostic total over the invalid entries, from any starting pair. -/
theorem summarize_aux (rs : List (String × LintResult)) :
    ∀ a b : Nat,
      rs.foldl
        (fun acc p =>
          if p.2.valid then acc else (acc.1 + 1, acc.2 + p.2.errors.length))
        (a, b) =
      (a + (rs.filter (fun p => !p.2.valid)).length,
       b + ((rs.filter (fun p => !p.2.valid)).map
              (fun p => p.2.errors.length)).sum) := by
  induction rs with
  | nil => intro a b; simp
  | cons p rest ih =>
      intro a b
      simp only [List.foldl_cons]
      by_cases hv : p.2.valid = true
      · rw [if_pos hv, ih a b]
        simp [List.filter_cons, hv]
      · rw [if_neg hv, ih (a + 1) (b + p.2.errors.length)]
        have hvb : (!p.2.valid) = true := by simp [hv]
        simp only [List.filter_cons, hvb, if_pos, List.length_cons,
          List.map_cons, List.sum_cons, Prod.mk.injEq]
        constructor <;> omega

/-- `summarize` in closed form. -/
theorem summarize_spec (rs : List (String × LintResult)) :
    summarize rs =
      ((rs.filter (fun p => !p.2.valid)).length,
       ((rs.filter (fun p => !p.2.valid)).map
          (fun p => p.2.errors.length)).sum) := by
  unfold summarize
  rw [summarize_aux rs 0 0]
  simp

/-- A successful engine run with `valid = true` has no diagnostics. -/
theorem runLint_ok_good (env : Env) (fp c : String) (r : LintResult)
    (h : runLint env fp c = .ok r) : goodRes r := by
  intro hv
  have hval := runLint_ok_valid env fp c r h
  rw [hv] at hval
  exact (List.isEmpty_iff.mp hval.symm)

/-- Every successful `lintWorkflow` result is good. -/
theorem lintWorkflow_ok_good (env : Env) (p : LintWorkflowParams)
    (r : LintResult) (h : lintWorkflow env p = .ok r) : goodRes r := by
  unfold lintWorkflow at h
  split at h
  · cases hr : env.readFile p.filePath with
    | error e => rw [hr] at h; simp at h
    | ok d => rw [hr] at h; exact runLint_ok_good env _ d r h
  · split at h
    · exact runLint_ok_good env _ _ r h
    · simp at h

/-- Every per-file aggregate entry is good (the synthetic result is
invalid, a real result satisfies `runLint_ok_good`). -/
theorem resultFor_good (env : Env) (file : String) :
    goodRes (resultFor env file) := by
  unfold resultFor
  cases h : lintWorkflow env { filePath := file, content := "" } with
  | error e => intro hv; simp [syntheticResult] at hv
  | ok r => exact lintWorkflow_ok_good env _ r h

/-- Membership after a map insertion: an old entry or the new pair. -/
theorem mapInsert_mem (m : List (String × LintResult)) (k : String)
    (v : LintResult) (q : String × LintResult) (h : q ∈ mapInsert m k v) :
    q ∈ m ∨ q = (k, v) := by
  unfold mapInsert at h
  split at h
  · obtain ⟨p, hp, hfq⟩ := List.mem_map.mp h
    by_cases hk : (p.1 == k) = true
    · right; rw [if_pos hk] at hfq; exact hfq.symm
    · left; rw [if_neg hk] at hfq; rw [← hfq]; exact hp
  · rcases List.mem_append.mp h with h1 | h2
    · left; exact h1
    · right; simpa using h2

/-- Every entry of the fan-out result is good, provided the initial
map's entries are. -/
theorem buildResults_good (env : Env) :
    ∀ (files : List String) (m : List (String × LintResult)),
      (∀ q ∈ m, goodRes q.2) →
      ∀ q ∈ buildResults env files m, goodRes q.2 := by
  intro files
  induction files with
  | nil => intro m hm q hq; exact hm q hq
  | cons f rest ih =>
      intro m hm
      simp only [buildResults]
      apply ih
      intro q hq
      rcases mapInsert_mem m f (resultFor env f) q hq with h1 | h2
      · exact hm q h1
      · rw [h2]; exact resultFor_good env f

/-- When every entry is good, summing diagnostics over the invalid
entries equals summing over all entries. -/
theorem sum_invalid_eq_sum_all (rs : List (String × LintResult))
    (hg : ∀ q ∈ rs, goodRes q.2) :
    ((rs.filter (fun p => !p.2.valid)).map
        (fun p => p.2.errors.length)).sum =
      (rs.map (fun p => p.2.errors.length)).sum := by
  induction rs with
  | nil => rfl
  | cons p rest ih =>
      have hp : goodRes p.2 := hg p (List.mem_cons_self p rest)
      have hrest : ∀ q ∈ rest, goodRes q.2 :=
        fun q hq => hg q (List.mem_cons_of_mem p hq)
      by_cases hv : p.2.valid = true
      · have he : p.2.errors = [] := hp hv
        simp [List.filter_cons, hv, he, ih hrest]
      · have hvb : (!p.2.valid) = true := by simp [hv]
        simp [List.filter_cons, hvb, ih hrest]

/-- The two counters in closed form over a good results list. -/
theorem summary_counts (rs : List (String × LintResult))
    (hg : ∀ q ∈ rs, goodRes q.2) :
    (summarize rs).1 = (rs.filter (fun p => !p.2.valid)).length ∧
    (summarize rs).2 = (rs.map (fun p => p.2.errors.length)).sum := by
  rw [summarize_spec]
  exact ⟨rfl, sum_invalid_eq_sum_all rs hg⟩

/-- C2: in every directory summary, `files_with_errors` counts the
entries with `valid = false` and `total_errors` sums the diagnostic
list lengths over all entries of `results`. -/
theorem checkAllWorkflows_summary_invariants (env : Env)
    (params : CheckAllWorkflowsParams) (s : Summary)
    (h : checkAllWorkflows env params = .summary s) :
    s.filesWithErrors = (s.results.filter (fun p => !p.2.valid)).length ∧
    s.totalErrors = (s.results.map (fun p => p.2.errors.length)).sum := by
  unfold checkAllWorkflows at h
  dsimp only at h
  split at h <;> split at h
  · exact absurd h (by simp)
  · simp only [CheckAllOutput.summary.injEq] at h
    subst h
    exact summary_counts _
      (buildResults_good env _ [] (fun q hq => absurd hq (List.not_mem_nil q)))
  · exact absurd h (by simp)
  · simp only [CheckAllOutput.summary.injEq] at h
    subst h
    exact summary_counts _
      (buildResults_good env _ [] (fun q hq => absurd hq (List.not_mem_nil q)))

theorem checkAllWorkflows_summary_invariants_witness :
    mixedSummary.filesWithErrors =
        (mixedSummary.results.filter (fun p => !p.2.valid)).length ∧
    mixedSummary.totalErrors =
        (mixedSummary.results.map (fun p => p.2.errors.length)).sum :=
  checkAllWorkflows_summary_invariants envMixed { directory := "d" }
    mixedSummary rfl

/-- In the replace branch, looking up the inserted key finds the new
value. -/
theorem mapLookup_replace_self (k : String) (v : LintResult) :
    ∀ m : List (String × LintResult),
      m.any (fun p => p.1 == k) = true →
      mapLookup (m.map (fun p => if p.1 == k then (k, v) else p)) k =
        some v := by
  intro m
  induction m with
  | nil => intro h; simp at h
  | cons p rest ih =>
      intro h
      by_cases hk : (p.1 == k) = true
      · simp only [List.map_cons]
        rw [if_pos hk]
        simp [mapLookup]
      · have h' : rest.any (fun p => p.1 == k) = true := by
          simp only [List.any_cons, hk, Bool.false_or] at h
          exact h
        simp only [List.map_cons, if_neg hk, mapLookup]
        exact ih h'

/-- In the append branch, looking up the inserted key finds the new
value. -/
theorem mapLookup_append_self (k : String) (v : LintResult) :
    ∀ m : List (String × LintResult),
      m.any (fun p => p.1 == k) = false →
      mapLookup (m ++ [(k, v)]) k = some v := by
  intro m
  induction m with
  | nil => intro _; simp [mapLookup]
  | cons p rest ih =>
      intro h
      simp only [List.any_cons, Bool.or_eq_false_iff] at h
      simp only [List.cons_append, mapLookup]
      rw [if_neg (by simp [h.1])]
      exact ih h.2

/-- Looking up the key just inserted finds the inserted value. -/
theorem mapLookup_insert_self (m : List (String × LintResult))
    (k : String) (v : LintResult) :
    mapLookup (mapInsert m k v) k = some v := by
  unfold mapInsert
  split
  · exact mapLookup_replace_self k v m (by assumption)
  · rename_i hany
    rw [Bool.not_eq_true] at hany
    exact mapLookup_append_self k v m hany

/-- The replace branch leaves other keys' lookups unchanged. -/
theorem mapLookup_replace_ne (k : String) (v : LintResult) (q : String)
    (hne : (q == k) = false) :
    ∀ m : List (String × LintResult),
      mapLookup (m.map (fun p => if p.1 == k then (k, v) else p)) q =
        mapLookup m q := by
  intro m
  induction m with
  | nil => rfl
  | cons p rest ih =>
      by_cases hk : (p.1 == k) = true
      · have hkq : (k == q) = false := by
          rw [beq_eq_false_iff_ne] at hne ⊢
          exact fun e => hne e.symm
        have hpq : (p.1 == q) = false := by
          rw [show p.1 = k from eq_of_beq hk]
          exact hkq
        simp only [List.map_cons, if_pos hk, mapLookup]
        rw [if_neg (by simp [hkq]), if_neg (by simp [hpq])]
        exact ih
      · simp only [List.map_cons, if_neg hk, mapLookup]
        by_cases hp : (p.1 == q) = true
        · rw [if_pos hp, if_pos hp]
        · rw [if_neg hp, if_neg hp]
          exact ih

/-- The append branch leaves other keys' lookups unchanged. -/
theorem mapLookup_append_ne (k : String) (v : LintResult) (q : String)
    (hne : (q == k) = false) :
    ∀ m : List (String × LintResult),
      mapLookup (m ++ [(k, v)]) q = mapLookup m q := by
  intro m
  induction m with
  | nil =>
      have hkq : (k == q) = false := by
        rw [beq_eq_false_iff_ne] at hne ⊢
        exact fun e => hne e.symm
      simp [mapLookup, hkq]
  | cons p rest ih =>
      simp only [List.cons_append, mapLookup]
      by_cases hp : (p.1 == q) = true
      · rw [if_pos hp, if_pos hp]
      · rw [if_neg hp, if_neg hp]
        exact ih

/-- Inserting under one key leaves other keys' lookups unchanged. -/
theorem mapLookup_insert_ne (m : List (String × LintResult))
    (k : String) (v : LintResult) (q : String) (hne : (q == k) = false) :
    mapLookup (mapInsert m k v) q = mapLookup m q := by
  unfold mapInsert
  split
  · exact mapLookup_replace_ne k v q hne m
  · exact mapLookup_append_ne k v q hne m

/-- The fan-out loop does not disturb the binding of a file outside the
processed list. -/
theorem buildResults_lookup_notin (env : Env) :
    ∀ (files : List String) (m : List (String × LintResult)) (f : String),
      f ∉ files →
      mapLookup (buildResults env files m) f = mapLookup m f := by
  intro files
  induction files with
  | nil => intro m f _; rfl
  | cons x rest ih =>
      intro m f hf
      have hx : f ≠ x := fun e => hf (e ▸ List.mem_cons_self x rest)
      have hrest : f ∉ rest := fun hr => hf (List.mem_cons_of_mem x hr)
      simp only [buildResults]
      rw [ih _ f hrest]
      exact mapLookup_insert_ne m x (resultFor env x) f
        (beq_eq_false_iff_ne.mpr hx)

/-- Every processed file ends up bound to its per-file outcome. -/
theorem buildResults_lookup_mem (env : Env) :
    ∀ (files : List String) (m : List (String × LintResult)) (f : String),
      f ∈ files →
      mapLookup (buildResults env files m) f = some (resultFor env f) := by
  intro files
  induction files with
  | nil => intro m f hf; exact absurd hf (List.not_mem_nil f)
  | cons x rest ih =>
      intro m f hf
      simp only [buildResults]
      by_cases hr : f ∈ rest
      · exact ih _ f hr
      · have hfx : f = x := by
          rcases List.mem_cons.mp hf with h | h
          · exact h
          · exact absurd h hr
        subst hfx
        rw [buildResults_lookup_notin env rest _ f hr]
        exact mapLookup_insert_self m f (resultFor env f)

/-- A successful lookup exhibits a member of the association list. -/
theorem mapLookup_mem (k : String) (v : LintResult) :
    ∀ m : List (String × LintResult),
      mapLookup m k = some v → (k, v) ∈ m := by
  intro m
  induction m with
  | nil => intro h; simp [mapLookup] at h
  | cons p rest ih =>
      intro h
      simp only [mapLookup] at h
      by_cases hp : (p.1 == k) = true
      · rw [if_pos hp] at h
        have h1 : p.1 = k := eq_of_beq hp
        have h2 : p.2 = v := by injection h
        rw [← h1, ← h2]
        exact List.mem_cons_self p rest
      · rw [if_neg hp] at h
        exact List.mem_cons_of_mem p (ih h)

/-- Insertion keeps the key list duplicate-free. -/
theorem mapInsert_keys_nodup (k : String) (v : LintResult)
    (m : List (String × LintResult)) (hm : (m.map Prod.fst).Nodup) :
    ((mapInsert m k v).map Prod.fst).Nodup := by
  unfold mapInsert
  split
  · have hkeys : ((m.map (fun p => if p.1 == k then (k, v) else p)).map
        Prod.fst) = m.map Prod.fst := by
      rw [List.map_map]
      apply List.map_congr_left
      intro p _
      by_cases hk : (p.1 == k) = true
      · simp only [Function.comp_apply, if_pos hk]
        exact (eq_of_beq hk).symm
      · simp only [Function.comp_apply, if_neg hk]
    rw [hkeys]
    exact hm
  · rename_i hany
    rw [Bool.not_eq_true] at hany
    rw [List.map_append]
    refine List.Nodup.append hm (List.nodup_singleton k) ?_
    intro a ha hb
    have hak : a = k := by simpa using hb
    obtain ⟨p, hp, hpa⟩ := List.mem_map.mp ha
    have : (p.1 == k) = true := beq_iff_eq.mpr (hpa.trans hak)
    have hall := List.any_eq_false.mp hany p hp
    exact hall this

/-- The fan-out result has duplicate-free keys when the initial map
does. -/
theorem buildResults_keys_nodup (env : Env) :
    ∀ (files : List String) (m : List (String × LintResult)),
      (m.map Prod.fst).Nodup →
      ((buildResults env files m).map Prod.fst).Nodup := by
  intro files
  induction files with
  | nil => intro m hm; exact hm
  | cons x rest ih =>
      intro m hm
      simp only [buildResults]
      exact ih _ (mapInsert_keys_nodup x (resultFor env x) m hm)

/-- With duplicate-free keys, a bound key occurs in exactly one entry. -/
theorem filter_key_length (f : String) :
    ∀ m : List (String × LintResult), (m.map Prod.fst).Nodup →
      ∀ v, mapLookup m f = some v →
      (m.filter (fun p => p.1 == f)).length = 1 := by
  intro m
  induction m with
  | nil => intro _ v h; simp [mapLookup] at h
  | cons p rest ih =>
      intro hnd v h
      simp only [List.map_cons, List.nodup_cons] at hnd
      obtain ⟨hnotin, hnd'⟩ := hnd
      simp only [mapLookup] at h
      by_cases hp : (p.1 == f) = true
      · have hfr : rest.filter (fun q => q.1 == f) = [] := by
          apply List.filter_eq_nil_iff.mpr
          intro q hq hq'
          apply hnotin
          have h1 : q.1 = p.1 := (eq_of_beq hq').trans (eq_of_beq hp).symm
          exact h1 ▸ List.mem_map_of_mem Prod.fst hq
        simp [List.filter_cons, hp, hfr]
      · rw [if_neg hp] at h
        simp only [List.filter_cons, hp, Bool.false_eq_true, if_false]
        exact ih hnd' v h

/-- For any discovered file, the fan-out result binds it exactly once,
and to the synthetic result when its validation failed. -/
theorem buildResults_one_entry (env : Env) (files : List String)
    (f : String) (hf : f ∈ files) :
    ((buildResults env files []).filter (fun p => p.1 == f)).length = 1 ∧
    (∀ e, lintWorkflow env { filePath := f, content := "" } = .error e →
        (f, syntheticResult f e) ∈ buildResults env files []) := by
  have hnd := buildResults_keys_nodup env files [] (by simp)
  have hlk := buildResults_lookup_mem env files [] f hf
  constructor
  · exact filter_key_length f _ hnd _ hlk
  · intro e he
    have hsyn : resultFor env f = syntheticResult f e := by
      unfold resultFor
      rw [he]
    rw [← hsyn]
    exact mapLookup_mem f _ _ hlk

/-- C3: the aggregator never aborts on a per-file failure — every
discovered file has exactly one entry in `results` keyed by its path,
and a file whose validation fails is bound to the synthetic result
with one severity-`error` diagnostic embedding the cause and
`valid = false`. -/
theorem checkAllWorkflows_per_file_isolation (env : Env)
    (params : CheckAllWorkflowsParams) (s : Summary) (directory f : String)
    (hdir : directory =
      if params.directory != "" then params.directory
      else ".github/workflows")
    (h : checkAllWorkflows env params = .summary s)
    (hf : f ∈ (env.glob (joinPath directory "*.yml")).1 ++
            (env.glob (joinPath directory "*.yaml")).1) :
    (s.results.filter (fun p => p.1 == f)).length = 1 ∧
    (∀ e, lintWorkflow env { filePath := f, content := "" } = .error e →
        (f, syntheticResult f e) ∈ s.results) := by
  subst hdir
  unfold checkAllWorkflows at h
  dsimp only at h
  split at h <;> rename_i hd
  · rw [if_pos hd] at hf
    split at h
    · exact absurd h (by simp)
    · simp only [CheckAllOutput.summary.injEq] at h
      subst h
      exact buildResults_one_entry env _ f hf
  · rw [if_neg hd] at hf
    split at h
    · exact absurd h (by simp)
    · simp only [CheckAllOutput.summary.injEq] at h
      subst h
      exact buildResults_one_entry env _ f hf

theorem checkAllWorkflows_per_file_isolation_witness :
    (readFailSummary.results.filter (fun p => p.1 == "d/a.yml")).length = 1 ∧
    ("d/a.yml", syntheticResult "d/a.yml" "failed to read file: boom")
      ∈ readFailSummary.results :=
  ⟨(checkAllWorkflows_per_file_isolation envReadFail { directory := "d" }
      readFailSummary "d" "d/a.yml" rfl rfl (by decide)).1,
   (checkAllWorkflows_per_file_isolation envReadFail { directory := "d" }
      readFailSummary "d" "d/a.yml" rfl rfl (by decide)).2
      "failed to read file: boom" rfl⟩
